import Mathlib

/-!
# Verification of the briefrr request-orchestration and streaming-relay subsystem

Shallow embedding, in Lean 4, of the rate limiter (`utils/rate-limiter.js`),
the storage helper (`utils/storage.js`), the Gemini streaming relay
(`utils/gemini-api.js` / background service worker), and the session
controller (`content.js`) of the briefrr repository, together with proofs
about their behaviour.

Conventions:
- JavaScript numbers that hold epoch timestamps or millisecond durations are
  embedded as `Int` (they are exact integers in every reachable state).
- A JavaScript value that may be `null`/`undefined` is embedded as `Option _`.
- Asynchronous storage code is embedded as explicit state passing over the
  record of persisted keys; the event-loop race in `canMakeRequest` is
  embedded by annotating each promise with its settle time.
-/

set_option linter.unusedVariables false

/-! ## Storage helper (`utils/storage.js`)

Persisted keys relevant to rate limiting: `lastRequestTime` (epoch ms) and
`retryBackoff` (ms). A key that was never set, or was removed, is `none`. -/

/-- The two persisted rate-limit keys of `chrome.storage.local`. -/
structure StoredState where
  lastRequestTime : Option Int
  retryBackoff : Option Int
deriving Repr, DecidableEq

/-- `Storage.getLastRequestTime`: returns `result.lastRequestTime || null`,
so a stored `0` (falsy in JS) collapses to `null`. -/
def Storage.getLastRequestTime (s : StoredState) : Option Int :=
  match s.lastRequestTime with
  | some v => if v = 0 then none else some v
  | none => none

/-- `Storage.setLastRequestTime(timestamp)`. -/
def Storage.setLastRequestTime (timestamp : Int) (s : StoredState) : StoredState :=
  { s with lastRequestTime := some timestamp }

/-- `Storage.getRetryBackoff`: returns `result.retryBackoff || 0`,
so an absent key (and a stored `0`) reads as `0`. -/
def Storage.getRetryBackoff (s : StoredState) : Int :=
  match s.retryBackoff with
  | some v => if v = 0 then 0 else v
  | none => 0

/-- `Storage.setRetryBackoff(delay)`. -/
def Storage.setRetryBackoff (delay : Int) (s : StoredState) : StoredState :=
  { s with retryBackoff := some delay }

/-- `Storage.clearRetryBackoff()`: removes the key. -/
def Storage.clearRetryBackoff (s : StoredState) : StoredState :=
  { s with retryBackoff := none }

/-! ## RateLimiter (`utils/rate-limiter.js`) -/

/-- `RateLimiter.MIN_REQUEST_DELAY`: minimum delay between requests (4 s). -/
def MIN_REQUEST_DELAY : Int := 4000

/-- `RateLimiter.INITIAL_BACKOFF`: initial backoff for 429 errors (60 s). -/
def INITIAL_BACKOFF : Int := 60000

/-- `RateLimiter.MAX_BACKOFF`: maximum backoff delay (5 min). -/
def MAX_BACKOFF : Int := 300000

/-- Result of `RateLimiter.canMakeRequest()`: `{ allowed: true }` or
`{ allowed: false, remainingMs, reason }`. The source's reason strings are
`"backoff"` and `"rate_limit"` (the latter is the minimum-spacing throttle,
called "spacing" in the specification). The `timedOut`/`error` variants of
the allowed object only add fields that callers never read, so they embed
to `allowed`. -/
inductive CheckResult where
  | allowed
  | denied (remainingMs : Int) (reason : String)
deriving Repr, DecidableEq

/-- The minimum-spacing half of `canMakeRequest` (source lines 55–67):
deny with reason `rate_limit` while fewer than `MIN_REQUEST_DELAY` ms have
elapsed since the last recorded request. -/
def spacingCheck (s : StoredState) (lastRequestTime : Option Int) (now : Int) :
    CheckResult × StoredState :=
  match lastRequestTime with
  | some t =>
      if now - t < MIN_REQUEST_DELAY then
        (.denied (MIN_REQUEST_DELAY - (now - t)) "rate_limit", s)
      else
        (.allowed, s)
  | none => (.allowed, s)

/-- The body of `canMakeRequest`'s `checkPromise` (source lines 35–68),
run at time `now` against resolved storage reads. Returns the check result
together with the storage state after the side effect of clearing an
expired backoff. -/
def canMakeRequestCheck (s : StoredState) (now : Int) : CheckResult × StoredState :=
  let lastRequestTime := Storage.getLastRequestTime s
  let backoffDelay := Storage.getRetryBackoff s
  if 0 < backoffDelay then
    -- JS: `lastRequestTime + backoffDelay` where a null timestamp coerces to 0
    let backoffUntil := lastRequestTime.getD 0 + backoffDelay
    if now < backoffUntil then
      (.denied (backoffUntil - now) "backoff", s)
    else
      -- backoff period has expired, clear it
      spacingCheck (Storage.clearRetryBackoff s) lastRequestTime now
  else
    spacingCheck s lastRequestTime now

/-- A settled promise, annotated with the event-loop time at which it
settles. Used to embed the `Promise.race` in `canMakeRequest`. -/
structure SettledPromise (α : Type) where
  time : Int
  value : α
deriving Repr, DecidableEq

/-- `Promise.race([a, b])`: the result of whichever promise settles first
(the first argument on a tie, matching array order). -/
def promiseRace {α : Type} (a b : SettledPromise α) : SettledPromise α :=
  if a.time ≤ b.time then a else b

/-- `RateLimiter.canMakeRequest()` (source lines 28–82): races the storage
check (settling `storageDelay` ms after the call) against a 2000 ms timeout
that resolves `{ allowed: true, timedOut: true }`. -/
def canMakeRequestRaced (storageDelay : Int) (s : StoredState) (now : Int) :
    SettledPromise CheckResult :=
  promiseRace
    ⟨storageDelay, (canMakeRequestCheck s now).1⟩
    ⟨2000, .allowed⟩

/-- `RateLimiter.recordRequest()`. -/
def recordRequest (now : Int) (s : StoredState) : StoredState :=
  Storage.setLastRequestTime now s

/-- `RateLimiter.recordSuccess()`. -/
def recordSuccess (s : StoredState) : StoredState :=
  Storage.clearRetryBackoff s

/-- The new backoff computed by `RateLimiter.recordRateLimitError()`
(source lines 102–117) from the current stored backoff: `INITIAL_BACKOFF`
when no backoff is active (`!currentBackoff || currentBackoff === 0`),
otherwise double the current value capped at `MAX_BACKOFF`. -/
def recordRateLimitErrorStep (currentBackoff : Int) : Int :=
  if currentBackoff = 0 then INITIAL_BACKOFF
  else min (currentBackoff * 2) MAX_BACKOFF

/-- `RateLimiter.recordRateLimitError()`: stores the new backoff and
returns it. First component: state after `Storage.setRetryBackoff`;
second component: the returned `newBackoff`. -/
def recordRateLimitError (s : StoredState) : StoredState × Int :=
  let newBackoff := recordRateLimitErrorStep (Storage.getRetryBackoff s)
  (Storage.setRetryBackoff newBackoff s, newBackoff)

/-- `RateLimiter.formatTimeRemaining(ms)`: seconds (ceiling) below one
minute, otherwise ceiling minutes, pluralized. -/
def formatTimeRemaining (ms : Nat) : String :=
  let seconds := (ms + 999) / 1000
  if seconds < 60 then
    toString seconds ++ " second" ++ (if seconds ≠ 1 then "s" else "")
  else
    let minutes := (seconds + 59) / 60
    toString minutes ++ " minute" ++ (if minutes ≠ 1 then "s" else "")

/-- The stored backoff after `n` consecutive `recordRateLimitError()` calls
starting from a state with no stored backoff. -/
def backoffAfter : Nat → Int
  | 0 => 0
  | n + 1 => recordRateLimitErrorStep (backoffAfter n)

/-! ## Channel protocol (`background.js` streaming port handler) -/

/-- A message on the `briefrr-stream` channel:
`{ type: "chunk", text }`, `{ type: "done" }`, or `{ type: "error", error }`. -/
inductive StreamMessage where
  | chunk (text : String)
  | done
  | error (errorText : String)
deriving Repr, DecidableEq

/-- The observable outcome of driving the `streamGeminiResponse` async
generator to its end: it either finished normally after yielding `chunks`,
or threw with message `err` after yielding `chunks`. -/
inductive GenOutcome where
  | completed (chunks : List String)
  | failed (chunks : List String) (err : String)
deriving Repr, DecidableEq

/-- The chunks an outcome yielded before terminating. -/
def GenOutcome.chunks : GenOutcome → List String
  | .completed cs => cs
  | .failed cs _ => cs

/-- The `port.onMessage` listener of the background worker (source lines
36–52): posts `{type: chunk}` for every yielded chunk in order, then one
`{type: done}` on normal exhaustion, or one `{type: error}` if the
generator threw. Embedded under the assumption that the channel stays
connected, so every `postMessage` succeeds. -/
def relayMessages : GenOutcome → List StreamMessage
  | .completed cs => cs.map .chunk ++ [.done]
  | .failed cs e => cs.map .chunk ++ [.error e]

/-- The terminal message the port handler posts for an outcome: `done` on
normal exhaustion, `error` when the generator threw. -/
def terminalOf : GenOutcome → StreamMessage
  | .completed _ => .done
  | .failed _ e => .error e

/-- Whether a channel message terminates the stream. -/
def StreamMessage.isTerminal : StreamMessage → Bool
  | .chunk _ => false
  | .done => true
  | .error _ => true

/-- The texts of the `chunk` messages of a stream, in arrival order. -/
def chunkTexts (ms : List StreamMessage) : List String :=
  ms.filterMap fun m =>
    match m with
    | .chunk t => some t
    | _ => none

/-! ## Upstream error mapping (`utils/gemini-api.js`) -/

/-- An apostrophe (the user-facing relay messages contain one). -/
def apos : String := (Char.ofNat 39).toString

/-- The pre-stream HTTP error mapping of `streamGeminiResponse` (source
lines 161–179), applied when `!response.ok`: the thrown error message and
the storage state after any `recordRateLimitError` side effect.
`serverMessage` is `parsed.error?.message` from the response body (`none`
when the body is not JSON or carries no message; an empty string is falsy
in JS, so it also falls back to the generic message). -/
def streamErrorMapping (status : Nat) (serverMessage : Option String)
    (s : StoredState) : String × StoredState :=
  let errorMsg :=
    match serverMessage with
    | some m => if m = "" then "API error (" ++ toString status ++ ")" else m
    | none => "API error (" ++ toString status ++ ")"
  if status = 400 then ("INVALID_KEY", s)
  else if status = 429 then
    let r := recordRateLimitError s
    ("RATE_LIMITED:" ++ toString r.2 ++ ":You" ++ apos
        ++ "ve hit the API rate limit. Please wait "
        ++ formatTimeRemaining r.2.toNat ++ " and try again.",
     r.1)
  else (errorMsg, s)

/-- The status mapping of `validateApiKey` (source lines 92–118), the GET
metadata call used to validate a credential: given `response.ok`, the
status, and the `detail` extracted from the body (`''` when absent),
returns the `{ valid, error }` object. -/
def validateApiKeyResult (ok : Bool) (status : Nat) (detail : String) :
    Bool × Option String :=
  if ok then (true, none)
  else if status = 429 then (false, some "RATE_LIMITED")
  else if status = 400 ∨ status = 403 then (false, some "INVALID_KEY")
  else (false, some (if detail = "" then "API returned status " ++ toString status
                     else detail))

/-! ## RATE_LIMITED encode/decode (relay → controller)

The relay throws `` `RATE_LIMITED:${ms}:${message}` `` (gemini-api.js lines
136 and 175); the controller parses it back by splitting on `:`
(content.js lines 413–420). Strings are embedded as `List Char`;
`${ms}` is the decimal representation of the delay. -/

/-- The decimal digit character for `n < 10`. -/
def digitChar (n : Nat) : Char :=
  if n = 0 then '0' else if n = 1 then '1' else if n = 2 then '2'
  else if n = 3 then '3' else if n = 4 then '4' else if n = 5 then '5'
  else if n = 6 then '6' else if n = 7 then '7' else if n = 8 then '8'
  else '9'

/-- The decimal digit string of a natural number, as produced by a JS
template literal for a non-negative integer. -/
def natDigits (n : Nat) : List Char :=
  if n < 10 then [digitChar n]
  else natDigits (n / 10) ++ [digitChar (n % 10)]
decreasing_by omega

/-- JS `parseInt(s, 10)` restricted to its behaviour on the strings the
relay produces: reads the maximal leading run of decimal digits; `none`
models `NaN` (no leading digit). -/
def jsParseInt (cs : List Char) : Option Nat :=
  let ds := cs.takeWhile Char.isDigit
  if ds.isEmpty then none
  else some (ds.foldl (fun a c => a * 10 + (c.toNat - 48)) 0)

/-- JS `String.prototype.split` with a single-character separator. -/
def jsSplitChar (sep : Char) : List Char → List (List Char)
  | [] => [[]]
  | c :: rest =>
      if c = sep then [] :: jsSplitChar sep rest
      else
        match jsSplitChar sep rest with
        | [] => [[c]]
        | p :: ps => (c :: p) :: ps

/-- JS `Array.prototype.join` with a single-character separator. -/
def joinWithChar (sep : Char) : List (List Char) → List Char
  | [] => []
  | [p] => p
  | p :: q :: ps => p ++ sep :: joinWithChar sep (q :: ps)

/-- JS `String.prototype.startsWith`: `startsWithList s p` is
`s.startsWith(p)`. -/
def startsWithList (s p : List Char) : Bool :=
  match p, s with
  | [], _ => true
  | _ :: _, [] => false
  | a :: ps, b :: ss => a = b && startsWithList ss ps

/-- The throttle error the relay encodes:
`"RATE_LIMITED:" + ms + ":" + message`. -/
def encodeRateLimited (ms : Nat) (message : List Char) : List Char :=
  "RATE_LIMITED:".data ++ natDigits ms ++ ':' :: message

/-- The controller's parse of a throttle error (content.js lines 413–420):
if the message starts with `RATE_LIMITED:` and splitting on `:` gives at
least 3 parts, recover `cooldownMs = parseInt(parts[1], 10)` and
`message = parts.slice(2).join(':')`; `none` models the fallback branches. -/
def parseRateLimited (errMessage : List Char) :
    Option (Option Nat × List Char) :=
  if startsWithList errMessage "RATE_LIMITED:".data then
    match jsSplitChar ':' errMessage with
    | _ :: p1 :: p2 :: rest => some (jsParseInt p1, joinWithChar ':' (p2 :: rest))
    | _ => none
  else none

/-! ## Incremental SSE decoding (`streamGeminiResponse`, lines 184–209)

The relay reads raw bytes, decodes them with a streaming `TextDecoder`
(carrying an undecoded multi-byte remainder between reads), buffers the
last unterminated line, and handles each complete line: `data: ` frames
are trimmed, `[DONE]` terminates the generator, other payloads are parsed
as JSON and their nested text field is yielded; malformed payloads are
skipped. Bytes are embedded as `Nat` (values 0–255). -/

/-- U+FFFD, the replacement character a `TextDecoder` emits for invalid
input. -/
def replacementChar : Char := Char.ofNat 0xFFFD

/-- The scalar value `n` as a `Char`, or U+FFFD when `n` is a surrogate or
out of range. -/
def charOfCodePoint (n : Nat) : Char :=
  if n < 0xD800 ∨ (0xE000 ≤ n ∧ n < 0x110000) then Char.ofNat n
  else replacementChar

/-- The streaming `TextDecoder` state: the bytes of a not-yet-complete
UTF-8 sequence, carried into the next read. -/
structure Utf8State where
  pending : List Nat
deriving Repr, DecidableEq

/-- Total length of the UTF-8 sequence introduced by lead byte `b`
(0 for a byte that cannot begin a sequence). -/
def utf8ExpectedLen (b : Nat) : Nat :=
  if b < 0x80 then 1
  else if b < 0xC0 then 0
  else if b < 0xE0 then 2
  else if b < 0xF0 then 3
  else if b < 0xF8 then 4
  else 0

/-- The code point of a complete UTF-8 sequence (payload bits of the lead
byte followed by the continuation bytes). -/
def utf8Combine (bytes : List Nat) : Nat :=
  match bytes with
  | [b] => b
  | [b1, b2] => (b1 % 0x20) * 0x40 + b2 % 0x40
  | [b1, b2, b3] => (b1 % 0x10) * 0x1000 + (b2 % 0x40) * 0x40 + b3 % 0x40
  | [b1, b2, b3, b4] =>
      (b1 % 0x8) * 0x40000 + (b2 % 0x40) * 0x1000 + (b3 % 0x40) * 0x40 + b4 % 0x40
  | _ => 0xFFFD

/-- One byte of streaming UTF-8 decoding (the byte-level transition of
`TextDecoder.decode(..., { stream: true })`): emits zero or more characters
and carries an incomplete sequence in the state. Invalid bytes decode to
U+FFFD, an aborted sequence is replaced and the offending byte
reprocessed. -/
def utf8Step (st : Utf8State) (b : Nat) : Utf8State × List Char :=
  match st.pending with
  | [] =>
      if utf8ExpectedLen b = 1 then (⟨[]⟩, [Char.ofNat b])
      else if utf8ExpectedLen b = 0 then (⟨[]⟩, [replacementChar])
      else (⟨[b]⟩, [])
  | lead :: _ =>
      if 0x80 ≤ b ∧ b < 0xC0 then
        let seq := st.pending ++ [b]
        if seq.length = utf8ExpectedLen lead then
          (⟨[]⟩, [charOfCodePoint (utf8Combine seq)])
        else (⟨seq⟩, [])
      else
        -- aborted sequence: emit U+FFFD, then process `b` against a fresh state
        if utf8ExpectedLen b = 1 then (⟨[]⟩, [replacementChar, Char.ofNat b])
        else if utf8ExpectedLen b = 0 then (⟨[]⟩, [replacementChar, replacementChar])
        else (⟨[b]⟩, [replacementChar])

/-- `decoder.decode(value, { stream: true })`: decode a whole read,
threading the remainder state byte by byte. -/
def decodeBytes (st : Utf8State) : List Nat → Utf8State × List Char
  | [] => (st, [])
  | b :: rest =>
      let r1 := utf8Step st b
      let r2 := decodeBytes r1.1 rest
      (r2.1, r1.2 ++ r2.2)

/-- The line-buffering step of the read loop (source lines 192–194):
`buffer += decoded; const lines = buffer.split('\n'); buffer = lines.pop()`.
Returns the complete lines and the new buffer. -/
def pushChunk (buffer decoded : List Char) : List (List Char) × List Char :=
  let parts := jsSplitChar '\n' (buffer ++ decoded)
  (parts.dropLast, parts.getLastD [])

/-- Character-by-character reformulation of `pushChunk`, used to prove that
line buffering is insensitive to read boundaries. -/
def feedChars (buffer : List Char) : List Char → List (List Char) × List Char
  | [] => ([], buffer)
  | c :: rest =>
      if c = '\n' then
        let r := feedChars [] rest
        (buffer :: r.1, r.2)
      else feedChars (buffer ++ [c]) rest

/-! ### JSON envelope parsing

`JSON.parse` on a frame payload, then
`json.candidates?.[0]?.content?.parts?.[0]?.text`. The parser is a
fuel-bounded model of `JSON.parse`: it accepts objects, arrays, strings
(with the standard escapes), numbers, booleans and null, and fails on
anything else, which the source catches and skips. -/

/-- A parsed JSON value. Number values never influence the relay, so they
keep their raw text. -/
inductive Json where
  | null
  | bool (b : Bool)
  | num (raw : List Char)
  | str (s : List Char)
  | arr (elems : List Json)
  | obj (fields : List (List Char × Json))
deriving Repr, Inhabited

/-- Drop leading JSON whitespace. -/
def skipWs (cs : List Char) : List Char :=
  cs.dropWhile fun c => c = ' ' ∨ c = '\n' ∨ c = '\t' ∨ c = '\r'

/-- The value of a hex digit, if any. -/
def hexVal (c : Char) : Option Nat :=
  if c.isDigit then some (c.toNat - 48)
  else if 'a' ≤ c ∧ c ≤ 'f' then some (c.toNat - 87)
  else if 'A' ≤ c ∧ c ≤ 'F' then some (c.toNat - 55)
  else none

/-- The character for a single-character JSON escape. -/
def escapeChar (c : Char) : Option Char :=
  if c = '"' then some '"'
  else if c = '\\' then some '\\'
  else if c = '/' then some '/'
  else if c = 'n' then some '\n'
  else if c = 't' then some '\t'
  else if c = 'r' then some '\r'
  else if c = 'b' then some (Char.ofNat 8)
  else if c = 'f' then some (Char.ofNat 12)
  else none

/-- Parse the body of a JSON string after its opening quote: the decoded
characters and the input after the closing quote. -/
def parseStringBody (cs : List Char) : Option (List Char × List Char) :=
  match cs with
  | [] => none
  | c :: rest =>
      if c = '"' then some ([], rest)
      else if c = '\\' then
        match rest with
        | [] => none
        | e :: rest2 =>
            if e = 'u' then
              match rest2 with
              | h1 :: h2 :: h3 :: h4 :: rest3 =>
                  match hexVal h1, hexVal h2, hexVal h3, hexVal h4 with
                  | some v1, some v2, some v3, some v4 =>
                      (parseStringBody rest3).map fun r =>
                        (charOfCodePoint (((v1 * 16 + v2) * 16 + v3) * 16 + v4) :: r.1, r.2)
                  | _, _, _, _ => none
              | _ => none
            else
              match escapeChar e with
              | some ec => (parseStringBody rest2).map fun r => (ec :: r.1, r.2)
              | none => none
      else (parseStringBody rest).map fun r => (c :: r.1, r.2)
termination_by cs.length
decreasing_by
  all_goals simp_all
  all_goals omega

/-- Parse a JSON number as its raw character run. -/
def parseNumber (cs : List Char) : Option (Json × List Char) :=
  let numChars := cs.takeWhile fun c =>
    c.isDigit ∨ c = '-' ∨ c = '+' ∨ c = '.' ∨ c = 'e' ∨ c = 'E'
  if numChars.isEmpty then none
  else some (.num numChars, cs.drop numChars.length)

mutual

/-- Fuel-bounded JSON value parser. -/
def parseValue : Nat → List Char → Option (Json × List Char)
  | 0, _ => none
  | Nat.succ fuel, cs =>
      match skipWs cs with
      | [] => none
      | c :: rest =>
          if c = '{' then
            match skipWs rest with
            | '}' :: rest2 => some (.obj [], rest2)
            | _ => parseMembers fuel rest []
          else if c = '[' then
            match skipWs rest with
            | ']' :: rest2 => some (.arr [], rest2)
            | _ => parseElems fuel rest []
          else if c = '"' then
            match parseStringBody rest with
            | some (s, rest2) => some (.str s, rest2)
            | none => none
          else if c = 't' then
            match rest with
            | 'r' :: 'u' :: 'e' :: rest2 => some (.bool true, rest2)
            | _ => none
          else if c = 'f' then
            match rest with
            | 'a' :: 'l' :: 's' :: 'e' :: rest2 => some (.bool false, rest2)
            | _ => none
          else if c = 'n' then
            match rest with
            | 'u' :: 'l' :: 'l' :: rest2 => some (.null, rest2)
            | _ => none
          else parseNumber (c :: rest)

/-- Fuel-bounded parse of object members, accumulating parsed fields. -/
def parseMembers : Nat → List Char → List (List Char × Json) →
    Option (Json × List Char)
  | 0, _, _ => none
  | Nat.succ fuel, cs, acc =>
      match skipWs cs with
      | '"' :: rest =>
          match parseStringBody rest with
          | some (key, rest2) =>
              match skipWs rest2 with
              | ':' :: rest3 =>
                  match parseValue fuel rest3 with
                  | some (v, rest4) =>
                      match skipWs rest4 with
                      | ',' :: rest5 => parseMembers fuel rest5 (acc ++ [(key, v)])
                      | '}' :: rest5 => some (.obj (acc ++ [(key, v)]), rest5)
                      | _ => none
                  | none => none
              | _ => none
          | none => none
      | _ => none

/-- Fuel-bounded parse of array elements, accumulating parsed values. -/
def parseElems : Nat → List Char → List Json → Option (Json × List Char)
  | 0, _, _ => none
  | Nat.succ fuel, cs, acc =>
      match parseValue fuel cs with
      | some (v, rest) =>
          match skipWs rest with
          | ',' :: rest2 => parseElems fuel rest2 (acc ++ [v])
          | ']' :: rest2 => some (.arr (acc ++ [v]), rest2)
          | _ => none
      | none => none

end

/-- `JSON.parse(data)`: parse a complete JSON text; fails (throws, in the
source) when the payload is not valid JSON or has trailing content. -/
def jsonParse (data : List Char) : Option Json :=
  match parseValue (data.length + 8) data with
  | some (j, rest) => if skipWs rest = [] then some j else none
  | none => none

/-- `obj?.[key]` on a JSON value. -/
def Json.getField (j : Json) (key : List Char) : Option Json :=
  match j with
  | .obj fields => (fields.find? fun kv => kv.1 = key).map fun kv => kv.2
  | _ => none

/-- `arr?.[i]` on a JSON value. -/
def Json.getIndex (j : Json) (i : Nat) : Option Json :=
  match j with
  | .arr elems => elems.get? i
  | _ => none

/-- `json.candidates?.[0]?.content?.parts?.[0]?.text` on a parsed payload,
defined when that field exists and is a string (it always is a string in
the upstream protocol). -/
def extractChunkText (data : List Char) : Option (List Char) :=
  match jsonParse data with
  | some j =>
      match (((((j.getField "candidates".data).bind
          (fun a => a.getIndex 0)).bind
          (fun a => a.getField "content".data)).bind
          (fun a => a.getField "parts".data)).bind
          (fun a => a.getIndex 0)).bind
          (fun a => a.getField "text".data) with
      | some (.str s) => some s
      | _ => none
  | none => none

/-- JS `String.prototype.trim` on a character list. -/
def jsTrimList (cs : List Char) : List Char :=
  ((cs.dropWhile Char.isWhitespace).reverse.dropWhile Char.isWhitespace).reverse

/-- What the loop body does with one complete line (source lines 196–207). -/
inductive LineAction where
  | yield (text : String)
  | skip
  | terminate
deriving Repr, DecidableEq

/-- Handling of one complete line: only `data: ` frames matter; their
payload is trimmed; `[DONE]` returns from the generator; a payload whose
JSON parse fails, or that carries no (truthy, i.e. nonempty) text field,
is skipped. -/
def processLine (line : List Char) : LineAction :=
  if startsWithList line "data: ".data then
    let data := jsTrimList (line.drop 6)
    if data = "[DONE]".data then .terminate
    else
      match extractChunkText data with
      | some t => if t = [] then .skip else .yield ⟨t⟩
      | none => .skip
  else .skip

/-- Process the complete lines of one read in order, stopping at the first
`[DONE]` (the generator `return`s, so later lines — and later reads — are
never examined; processing them against a `finished` flag yields the same
chunk sequence). Returns the finished flag and the yielded texts. -/
def runLines : Bool → List (List Char) → Bool × List String
  | true, _ => (true, [])
  | false, [] => (false, [])
  | false, l :: ls =>
      match processLine l with
      | .yield t =>
          let r := runLines false ls
          (r.1, t :: r.2)
      | .skip => runLines false ls
      | .terminate => (true, [])

/-- The generator's loop state between reads: decoder remainder, line
buffer, and whether `[DONE]` was seen. -/
structure RelayState where
  u : Utf8State
  buffer : List Char
  finished : Bool
deriving Repr, DecidableEq

/-- One iteration of the read loop of `streamGeminiResponse` on one read's
bytes: decode, buffer into lines, handle each complete line. -/
def processRead (st : RelayState) (bytes : List Nat) : RelayState × List String :=
  if st.finished then (st, [])
  else
    let d := decodeBytes st.u bytes
    let p := pushChunk st.buffer d.2
    let r := runLines false p.1
    (⟨d.1, p.2, r.1⟩, r.2)

/-- Run the read loop over a partition of the byte stream into reads. -/
def relayRun : RelayState → List (List Nat) → RelayState × List String
  | st, [] => (st, [])
  | st, r :: rs =>
      let s1 := processRead st r
      let s2 := relayRun s1.1 rs
      (s2.1, s1.2 ++ s2.2)

/-- The loop state at the start of a response body. -/
def initRelayState : RelayState := ⟨⟨[]⟩, [], false⟩

/-- The sequence of text chunks `streamGeminiResponse` yields for a byte
stream delivered as the given sequence of reads. -/
def relayStream (reads : List (List Nat)) : List String :=
  (relayRun initRelayState reads).2

/-- The UTF-8 bytes of an ASCII string (used to build concrete byte
streams). -/
def strBytes (s : String) : List Nat :=
  s.data.map Char.toNat

/-! ## Session controller (`content.js`) -/

/-- The controller's modes (source strings `highlights`, `explain`,
`search`; the specification calls them brief, explain, and query). -/
inductive Mode where
  | highlights
  | explain
  | search
deriving Repr, DecidableEq

/-- `HIGHLIGHTS_SYSTEM_PROMPT` (gemini-api.js lines 9–21). -/
def HIGHLIGHTS_SYSTEM_PROMPT : String :=
  "Create an ultra-concise summary of the provided web content.\n\nIMPORTANT: Only use information from the webpage content provided. Do not add external knowledge.\n\nFormat requirements:\n- Start with ONE sentence overview\n- List 5-10 key bullet points\n- Each bullet point: 1 sentence maximum\n- Use simple, clear language\n- Only include information explicitly stated on the page\n- Use clean Markdown formatting\n\nTotal response: under 200 words."

/-- `EXPLAIN_SYSTEM_PROMPT` (gemini-api.js lines 24–37). -/
def EXPLAIN_SYSTEM_PROMPT : String :=
  "Create a detailed explanation of the provided web content.\n\nIMPORTANT: Only use information from the webpage content provided. Do not add external knowledge.\n\nFormat requirements:\n- Start with a 2-3 sentence overview\n- List 10-20 key points as bullet points\n- Each bullet point: 1-2 sentences explaining a concept\n- Group related points under section headings (##) if helpful\n- Only explain concepts and ideas mentioned on the page\n- End with \"Key Takeaways\" section (3-5 points)\n- Use clean Markdown formatting\n\nTarget length: 400-600 words."

/-- `SEARCH_SYSTEM_PROMPT` (gemini-api.js lines 40–50). -/
def SEARCH_SYSTEM_PROMPT : String :=
  "Answer questions about the provided web content.\n\nRules:\n1. Only use information from the webpage content provided\n2. If the answer is not on the page, respond: \"This information is not found on this page.\"\n3. Do not use external knowledge or make assumptions\n4. Be concise and direct\n5. Quote relevant parts when helpful\n6. If partial answer available, clarify what is and isn"
    ++ apos ++ "t on the page\n\nUse clean Markdown formatting."

/-- The system prompt `runBriefrr` selects for a mode (content.js lines
343–354). -/
def systemPromptFor (mode : Mode) : String :=
  match mode with
  | .search => SEARCH_SYSTEM_PROMPT
  | .highlights => HIGHLIGHTS_SYSTEM_PROMPT
  | .explain => EXPLAIN_SYSTEM_PROMPT

/-- The fields of the extracted article that reach the prompt builder. -/
structure Article where
  title : String
  content : String
  siteName : String
deriving Repr, DecidableEq

/-- `buildUserPrompt(article, mode, searchQuery)` (gemini-api.js lines
59–82). -/
def buildUserPrompt (article : Article) (mode : Mode) (searchQuery : String) :
    String :=
  if mode = .search then
    "**Page Title**: " ++ article.title ++ "\n**Site**: " ++ article.siteName
      ++ "\n\n**Page Content**:\n" ++ article.content
      ++ "\n\n---\n\n**User Question**: " ++ searchQuery
      ++ "\n\nPlease answer the user" ++ apos
      ++ "s question using ONLY the information from the page content above. If the information is not on the page, explicitly state that."
  else
    "**Page Title**: " ++ article.title ++ "\n**Site**: " ++ article.siteName
      ++ "\n\n**Page Content**:\n" ++ article.content

/-- The arguments of one `showError(message, showRetry, autoRetryMs)` call
(content.js line 243): `autoRetryMs` is `some 0` when the argument is
omitted and `none` when a `parseInt` produced `NaN`. A countdown that
re-runs the current mode is armed exactly when the value is positive. -/
structure ErrorView where
  message : String
  showRetry : Bool
  autoRetryMs : Option Nat
deriving Repr, DecidableEq

/-- JS `String.prototype.includes` on character lists:
`containsList sub s` is `s.includes(sub)`. -/
def containsList (sub : List Char) : List Char → Bool
  | [] => sub.isEmpty
  | c :: rest => startsWithList (c :: rest) sub || containsList sub rest

/-- The `catch` classification of a stream error in `runBriefrr`
(content.js lines 408–429), mapping the relay's error message to the
`showError` call the user sees. -/
def classifyStreamError (errMessage : String) : ErrorView :=
  if errMessage = "INVALID_KEY" then
    ⟨"Your API key seems invalid. Please check it in Settings.", true, some 0⟩
  else if startsWithList errMessage.data "RATE_LIMITED:".data then
    match parseRateLimited errMessage.data with
    | some (cooldownMs, message) => ⟨⟨message⟩, false, cooldownMs⟩
    | none =>
        ⟨"You" ++ apos ++ "ve hit the rate limit. Please wait a moment and try again.",
         true, some 0⟩
  else if errMessage = "RATE_LIMITED" then
    ⟨"You" ++ apos ++ "ve hit the rate limit. Please wait a moment and try again.",
     true, some 0⟩
  else if containsList "Failed to fetch".data errMessage.data
      || containsList "NetworkError".data errMessage.data then
    ⟨"Couldn" ++ apos ++ "t connect to Gemini. Please check your internet connection.",
     true, some 0⟩
  else
    ⟨"The response was interrupted. " ++ errMessage, true, some 0⟩

/-- How the run's streaming promise settles when the port's `onDisconnect`
listener fires (content.js lines 396–403): reject with a connectivity
error only when the closure was not an explicit abort and nothing has been
accumulated (`!accumulated`: the empty string is falsy). -/
inductive DisconnectSettle where
  | rejected (err : String)
  | resolved
deriving Repr, DecidableEq

/-- The `port.onDisconnect` listener. -/
def onDisconnect (aborted : Bool) (accumulated : String) : DisconnectSettle :=
  if aborted = false ∧ accumulated = "" then
    .rejected "Connection to extension lost. Please try again."
  else
    .resolved

/-- How a run ends, as far as the user can observe: an error display, a
clean completion that keeps the accumulated text, or a silent return after
an explicit abort. -/
inductive RunResult where
  | errorShown (view : ErrorView) (accumulated : String)
  | completedClean (accumulated : String)
  | abortedSilent
deriving Repr, DecidableEq

/-- End of a run whose port disconnected: a rejection reaches the `catch`
(which first returns silently if the run was aborted, then classifies the
message); a resolution ends the run with the accumulated text still
rendered and no error surfaced. -/
def settleAfterDisconnect (aborted : Bool) (accumulated : String) : RunResult :=
  match onDisconnect aborted accumulated with
  | .rejected e =>
      if aborted then .abortedSilent
      else .errorShown (classifyStreamError e) accumulated
  | .resolved => .completedClean accumulated

/-- The controller state touched by `switchMode` (content.js lines
163–195): the displayed mode, the pending debounced run, and whether a
stream is live (`isStreaming` with an unaborted controller). At most one
debounce timer exists because every path clears the previous one before
arming a new one. -/
structure UIState where
  currentMode : Mode
  debounce : Option Mode
  streamLive : Bool
deriving Repr, DecidableEq

/-- `switchMode(newMode)`: clears any debounce timer, updates the header
immediately, then either waits for an explicit query submission (search)
or arms a 500 ms debounced `runBriefrr(newMode)` (highlights/explain).
It does not touch `abortController` or `isStreaming`. -/
def switchMode (s : UIState) (newMode : Mode) : UIState :=
  if newMode = .search then
    { currentMode := newMode, debounce := none, streamLive := s.streamLive }
  else
    { currentMode := newMode, debounce := some newMode, streamLive := s.streamLive }

/-- Expiry of the debounce timer: the pending `runBriefrr(mode)` starts (it
aborts any live stream first, content.js lines 283–285) — or nothing
happens when no run is pending. Returns the new state and the mode that
ran, if any. -/
def debounceFire (s : UIState) : UIState × Option Mode :=
  match s.debounce with
  | some m => ({ currentMode := s.currentMode, debounce := none, streamLive := true }, some m)
  | none => (s, none)

/-- The number of runs a debounce expiry would start from a state. -/
def pendingRuns (s : UIState) : Nat :=
  match s.debounce with
  | some _ => 1
  | none => 0

/-- The gate step of `runBriefrr` observed through the rate limiter: the
result of `RateLimiter.canMakeRequest()`, or `thrown` when the check
itself threw (content.js lines 308–312, which show a transient message and
proceed). -/
inductive GateOutcome where
  | result (check : CheckResult)
  | thrown
deriving Repr, DecidableEq

/-- Where a `runBriefrr` invocation ends before (or at) the streaming
phase. -/
inductive RunOutcome where
  | deniedCountdown (message : String) (remainingMs : Int)
  | needsApiKey
  | extractFailed (message : String)
  | emptyQuery
  | streaming (systemPrompt userPrompt : String)
deriving Repr, DecidableEq

/-- The pre-streaming control flow of `runBriefrr(mode)` (content.js lines
293–360), as a function of the gate outcome, the stored API key, the
extraction result (`Except.error` when `extractContent()` threw), the mode
and the query text. The order is the source's: rate-limit gate first, then
API key, then extraction, then query validation, then streaming. -/
def runBriefrr (gate : GateOutcome) (apiKey : Option String)
    (article : Except Unit Article) (mode : Mode) (searchQuery : String) :
    RunOutcome :=
  match gate with
  | .result (.denied remainingMs reason) =>
      .deniedCountdown
        (if reason = "backoff" then
          "Rate limit cooldown active. Too many requests were made."
         else "Please wait before making another request.")
        remainingMs
  | _ =>
    -- `.result .allowed`, or `thrown` (the catch shows a transient
    -- "Proceeding anyway" message and continues)
    match apiKey with
    | none => .needsApiKey
    | some _ =>
      match article with
      | .error _ =>
          .extractFailed
            ("Couldn" ++ apos
              ++ "t extract content from this page. The page might be too dynamic or empty.")
      | .ok a =>
          if a.content = "" ∨ (jsTrimList a.content.data).length < 50 then
            .extractFailed
              ("Couldn" ++ apos
                ++ "t extract meaningful content from this page. The page might be too dynamic or empty.")
          else if mode = .search ∧ jsTrimList searchQuery.data = [] then
            .emptyQuery
          else
            .streaming (systemPromptFor mode) (buildUserPrompt a mode searchQuery)

/-! ## Theorems -/

theorem backoffAfter_formula (n : Nat) :
    backoffAfter (n + 1) = min (60000 * 2 ^ n) 300000 := by
  induction n with
  | zero =>
      simp [backoffAfter, recordRateLimitErrorStep, INITIAL_BACKOFF, MAX_BACKOFF]
  | succ n ih =>
      have h2 : (0 : Int) < 2 ^ n := pow_pos (by norm_num) n
      have ha : (60000 : Int) ≤ 60000 * 2 ^ n := by nlinarith
      have hp : (60000 : Int) * 2 ^ (n + 1) = 60000 * 2 ^ n * 2 := by ring
      show recordRateLimitErrorStep (backoffAfter (n + 1)) = _
      rw [ih, recordRateLimitErrorStep, MAX_BACKOFF, hp]
      rcases le_total (60000 * 2 ^ n : Int) 300000 with h | h
      · rw [min_eq_left h, if_neg (by omega)]
      · rw [min_eq_right h, if_neg (by omega)]
        omega

/-- C1: after any sequence of `N ≥ 1` calls to `recordRateLimitError()`
starting from a state with no stored backoff, both the stored backoff
delay and the value the N-th call returns equal
`min(60000 * 2^(N-1), 300000)` ms. -/
theorem C1_exponential_backoff (N : Nat) (h : 1 ≤ N) :
    backoffAfter N = min (60000 * 2 ^ (N - 1)) 300000 ∧
    (recordRateLimitError ⟨some 0, some (backoffAfter (N - 1))⟩).1.retryBackoff =
      some (min (60000 * 2 ^ (N - 1)) 300000) ∧
    (recordRateLimitError ⟨some 0, some (backoffAfter (N - 1))⟩).2 =
      min (60000 * 2 ^ (N - 1)) 300000 := by
  obtain ⟨n, rfl⟩ : ∃ n, N = n + 1 := ⟨N - 1, by omega⟩
  have hf := backoffAfter_formula n
  have hg : Storage.getRetryBackoff ⟨some 0, some (backoffAfter n)⟩ = backoffAfter n := by
    unfold Storage.getRetryBackoff
    rcases Nat.eq_zero_or_pos n with rfl | hn
    · simp [backoffAfter]
    · obtain ⟨m, rfl⟩ : ∃ m, n = m + 1 := ⟨n - 1, by omega⟩
      have := backoffAfter_formula m
      have h2 : (0 : Int) < 2 ^ m := pow_pos (by norm_num) m
      have : backoffAfter (m + 1) ≠ 0 := by
        rw [backoffAfter_formula m]
        have : (60000 : Int) ≤ 60000 * 2 ^ m := by nlinarith
        omega
      simp [this]
  refine ⟨by simpa using hf, ?_, ?_⟩ <;>
    simp [recordRateLimitError, Storage.setRetryBackoff, hg, ← hf, backoffAfter]

/-- Closed witness for `C1_exponential_backoff` at `N = 3`. -/
theorem C1_exponential_backoff_witness :
    backoffAfter 3 = min (60000 * 2 ^ (3 - 1)) 300000 ∧
    (recordRateLimitError ⟨some 0, some (backoffAfter (3 - 1))⟩).1.retryBackoff =
      some (min (60000 * 2 ^ (3 - 1)) 300000) ∧
    (recordRateLimitError ⟨some 0, some (backoffAfter (3 - 1))⟩).2 =
      min (60000 * 2 ^ (3 - 1)) 300000 :=
  C1_exponential_backoff 3 (by decide)

/-- C2: the full case analysis of `canMakeRequest`'s storage check. With the
stored backoff `b` and last-request timestamp read as the source reads them:
(1) an active backoff window (`b` stored and `now < last + b`) yields a
denial with reason `backoff` and `remainingMs = last + b - now`;
(2) otherwise, a stored timestamp within `MIN_REQUEST_DELAY` of `now` yields
a denial with reason `rate_limit` (the spec's "spacing") and
`remainingMs = 4000 - (now - last)`, an expired backoff being cleared;
(3) otherwise the call is allowed and an expired stored backoff is cleared;
(4) in particular, for any stored backoff satisfying the data-model
invariant (`4000 ≤ b`; reachable values are 60000..300000), the first call
at or after the end of the backoff window is allowed and clears the
backoff. -/
theorem C2_canMakeRequest_cases (s : StoredState) (now : Int) :
    (0 < Storage.getRetryBackoff s ∧
        now < (Storage.getLastRequestTime s).getD 0 + Storage.getRetryBackoff s →
      canMakeRequestCheck s now =
        (.denied ((Storage.getLastRequestTime s).getD 0 + Storage.getRetryBackoff s - now)
          "backoff", s)) ∧
    (¬ (0 < Storage.getRetryBackoff s ∧
        now < (Storage.getLastRequestTime s).getD 0 + Storage.getRetryBackoff s) →
      ∀ t, Storage.getLastRequestTime s = some t → now - t < 4000 →
      canMakeRequestCheck s now =
        (.denied (4000 - (now - t)) "rate_limit",
         if 0 < Storage.getRetryBackoff s then Storage.clearRetryBackoff s else s)) ∧
    (¬ (0 < Storage.getRetryBackoff s ∧
        now < (Storage.getLastRequestTime s).getD 0 + Storage.getRetryBackoff s) →
      ¬ (∃ t, Storage.getLastRequestTime s = some t ∧ now - t < 4000) →
      canMakeRequestCheck s now =
        (.allowed,
         if 0 < Storage.getRetryBackoff s then Storage.clearRetryBackoff s else s)) ∧
    (4000 ≤ Storage.getRetryBackoff s →
      (Storage.getLastRequestTime s).getD 0 + Storage.getRetryBackoff s ≤ now →
      canMakeRequestCheck s now = (.allowed, Storage.clearRetryBackoff s)) := by
  refine ⟨?_, ?_, ?_, ?_⟩
  · rintro ⟨h1, h2⟩
    simp only [canMakeRequestCheck]
    rw [if_pos h1, if_pos h2]
  · intro hn t ht hlt
    simp only [canMakeRequestCheck, spacingCheck, ht, MIN_REQUEST_DELAY]
    by_cases hb : 0 < Storage.getRetryBackoff s
    · rw [if_pos hb, if_neg (by simp [ht] at hn ⊢; omega), if_pos hb, if_pos hlt]
    · rw [if_neg hb, if_neg hb, if_pos hlt]
  · intro hn hnsp
    have hstate : ∀ s', spacingCheck s' (Storage.getLastRequestTime s) now = (.allowed, s') := by
      intro s'
      rcases h : Storage.getLastRequestTime s with _ | t
      · simp [spacingCheck]
      · simp only [spacingCheck, MIN_REQUEST_DELAY]
        rw [if_neg (fun hc => hnsp ⟨t, h, hc⟩)]
    simp only [canMakeRequestCheck]
    by_cases hb : 0 < Storage.getRetryBackoff s
    · rw [if_pos hb, if_neg (by simp at hn; omega), hstate, if_pos hb]
    · rw [if_neg hb, hstate, if_neg hb]
  · intro h4 hle
    simp only [canMakeRequestCheck]
    rw [if_pos (by omega), if_neg (by omega)]
    rcases h : Storage.getLastRequestTime s with _ | t
    · simp [spacingCheck]
    · have : (Storage.getLastRequestTime s).getD 0 = t := by rw [h]; rfl
      simp only [spacingCheck, MIN_REQUEST_DELAY]
      rw [if_neg (by omega)]

/-- Closed witness for `C2_canMakeRequest_cases`, exercising all four
conjuncts on concrete states and times. -/
theorem C2_canMakeRequest_cases_witness :
    canMakeRequestCheck ⟨some 1000, some 60000⟩ 2000 =
      (.denied 59000 "backoff", ⟨some 1000, some 60000⟩) ∧
    canMakeRequestCheck ⟨some 1000, none⟩ 2000 =
      (.denied 3000 "rate_limit", ⟨some 1000, none⟩) ∧
    canMakeRequestCheck ⟨some 1000, none⟩ 9000 =
      (.allowed, ⟨some 1000, none⟩) ∧
    canMakeRequestCheck ⟨some 1000, some 60000⟩ 61000 =
      (.allowed, ⟨some 1000, none⟩) := by
  refine ⟨?_, ?_, ?_, ?_⟩
  · have h := (C2_canMakeRequest_cases ⟨some 1000, some 60000⟩ 2000).1
      ⟨by decide, by decide⟩
    simpa [Storage.getLastRequestTime, Storage.getRetryBackoff] using h
  · have h := (C2_canMakeRequest_cases ⟨some 1000, none⟩ 2000).2.1
      (by decide) 1000 (by decide) (by decide)
    simpa [Storage.getRetryBackoff, Storage.clearRetryBackoff] using h
  · have h := (C2_canMakeRequest_cases ⟨some 1000, none⟩ 9000).2.2.1
      (by decide) (by rintro ⟨t, ht, hlt⟩; simp [Storage.getLastRequestTime] at ht; omega)
    simpa [Storage.getRetryBackoff, Storage.clearRetryBackoff] using h
  · have h := (C2_canMakeRequest_cases ⟨some 1000, some 60000⟩ 61000).2.2.2
      (by decide) (by decide)
    simpa [Storage.clearRetryBackoff] using h

/-- C7: in the `Promise.race` between the storage check and the 2000 ms
timeout, a storage read that has not resolved within 2000 ms loses the race
to the timeout promise, so the call settles `allowed` (fail-open) at time
2000; and for every storage delay the call answers within 2000 ms of being
made — it never blocks on storage beyond that bound. -/
theorem C7_fail_open_timeout (storageDelay : Int) (s : StoredState) (now : Int)
    (h : 2000 < storageDelay) :
    (canMakeRequestRaced storageDelay s now).value = .allowed ∧
    (canMakeRequestRaced storageDelay s now).time = 2000 ∧
    ∀ d : Int, (canMakeRequestRaced d s now).time ≤ 2000 := by
  refine ⟨?_, ?_, ?_⟩
  · unfold canMakeRequestRaced promiseRace
    rw [if_neg (by simp; omega)]
  · unfold canMakeRequestRaced promiseRace
    rw [if_neg (by simp; omega)]
  · intro d
    unfold canMakeRequestRaced promiseRace
    split <;> simp_all

/-- Closed witness for `C7_fail_open_timeout` with a 5000 ms storage delay
against a state whose stored values would deny the request. -/
theorem C7_fail_open_timeout_witness :
    (canMakeRequestRaced 5000 ⟨some 1000, some 60000⟩ 2000).value = .allowed ∧
    (canMakeRequestRaced 5000 ⟨some 1000, some 60000⟩ 2000).time = 2000 ∧
    ∀ d : Int, (canMakeRequestRaced d ⟨some 1000, some 60000⟩ 2000).time ≤ 2000 :=
  C7_fail_open_timeout 5000 ⟨some 1000, some 60000⟩ 2000 (by decide)

theorem countP_map_chunk (cs : List String) :
    (cs.map StreamMessage.chunk).countP StreamMessage.isTerminal = 0 := by
  induction cs with
  | nil => rfl
  | cons c cs ih => simp [List.countP_cons, StreamMessage.isTerminal, ih]

theorem chunkTexts_map_chunk (cs : List String) :
    chunkTexts (cs.map StreamMessage.chunk) = cs := by
  induction cs with
  | nil => rfl
  | cons c cs ih => simpa [chunkTexts] using ih

/-- C3: for every way the generator can end, the message stream the relay
delivers on the channel is the yielded chunks, in order, followed by
exactly one terminal message — `done` on normal exhaustion, `error e` when
the generator threw `e`, never both and never neither — and the `chunk`
texts, taken in arrival order, are exactly the yielded chunks (no
reordering, duplication, or loss), so their concatenation is the full
decoded server response. -/
theorem C3_stream_termination_and_concat (g : GenOutcome) :
    relayMessages g = g.chunks.map StreamMessage.chunk ++ [terminalOf g] ∧
    (terminalOf g).isTerminal = true ∧
    (relayMessages g).countP StreamMessage.isTerminal = 1 ∧
    chunkTexts (relayMessages g) = g.chunks ∧
    String.join (chunkTexts (relayMessages g)) = String.join g.chunks := by
  have hshape : relayMessages g = g.chunks.map StreamMessage.chunk ++ [terminalOf g] := by
    cases g <;> rfl
  have hterm : (terminalOf g).isTerminal = true := by
    cases g <;> rfl
  have hcount : (relayMessages g).countP StreamMessage.isTerminal = 1 := by
    rw [hshape, List.countP_append, countP_map_chunk]
    simp [List.countP_cons, hterm]
  have htexts : chunkTexts (relayMessages g) = g.chunks := by
    have h1 : chunkTexts [terminalOf g] = [] := by cases g <;> rfl
    have h2 : chunkTexts (g.chunks.map StreamMessage.chunk ++ [terminalOf g])
        = chunkTexts (g.chunks.map StreamMessage.chunk) ++ chunkTexts [terminalOf g] := by
      simp only [chunkTexts, List.filterMap_append]
    rw [hshape, h2, h1, chunkTexts_map_chunk, List.append_nil]
  exact ⟨hshape, hterm, hcount, htexts, by rw [htexts]⟩

theorem digitChar_spec (d : Nat) (h : d < 10) :
    (digitChar d).isDigit = true ∧ (digitChar d).toNat = 48 + d := by
  interval_cases d <;> exact ⟨by decide, by decide⟩

theorem natDigits_all_digit (n : Nat) : ∀ c ∈ natDigits n, c.isDigit = true := by
  induction n using Nat.strong_induction_on with
  | _ n ih =>
    rw [natDigits]
    split
    · intro c hc
      rw [List.mem_singleton] at hc
      subst hc
      exact (digitChar_spec n (by omega)).1
    · intro c hc
      rw [List.mem_append, List.mem_singleton] at hc
      rcases hc with hc | hc
      · exact ih (n / 10) (by omega) c hc
      · subst hc
        exact (digitChar_spec (n % 10) (by omega)).1

theorem natDigits_ne_nil (n : Nat) : natDigits n ≠ [] := by
  rw [natDigits]
  split
  · simp
  · simp

theorem foldl_digits_natDigits (n : Nat) :
    (natDigits n).foldl (fun a c => a * 10 + (c.toNat - 48)) 0 = n := by
  induction n using Nat.strong_induction_on with
  | _ n ih =>
    rw [natDigits]
    split
    · rename_i h
      simp [List.foldl, (digitChar_spec n (by omega)).2]
    · rename_i h
      rw [List.foldl_append, ih (n / 10) (by omega)]
      simp [List.foldl, (digitChar_spec (n % 10) (by omega)).2]
      omega

theorem takeWhile_of_all {p : Char → Bool} :
    ∀ l : List Char, (∀ c ∈ l, p c = true) → l.takeWhile p = l := by
  intro l h
  induction l with
  | nil => rfl
  | cons a l ih =>
      rw [List.takeWhile_cons, if_pos (h a (by simp))]
      rw [ih fun c hc => h c (by simp [hc])]

theorem jsParseInt_natDigits (n : Nat) : jsParseInt (natDigits n) = some n := by
  have hne : (natDigits n).isEmpty = false := by
    cases h : natDigits n with
    | nil => exact absurd h (natDigits_ne_nil n)
    | cons a l => rfl
  simp [jsParseInt, takeWhile_of_all _ (natDigits_all_digit n), hne,
    foldl_digits_natDigits n]

theorem jsSplitChar_ne_nil (sep : Char) (cs : List Char) : jsSplitChar sep cs ≠ [] := by
  induction cs with
  | nil => simp [jsSplitChar]
  | cons c rest ih =>
      rw [jsSplitChar]
      split
      · simp
      · split <;> simp

theorem jsSplitChar_append (sep : Char) (xs ys : List Char)
    (h : ∀ c ∈ xs, c ≠ sep) :
    jsSplitChar sep (xs ++ sep :: ys) = xs :: jsSplitChar sep ys := by
  induction xs with
  | nil => simp [jsSplitChar]
  | cons a xs ih =>
      have ha : a ≠ sep := h a (by simp)
      rw [List.cons_append, jsSplitChar, if_neg ha,
        ih fun c hc => h c (by simp [hc])]

theorem joinWithChar_jsSplitChar (sep : Char) (cs : List Char) :
    joinWithChar sep (jsSplitChar sep cs) = cs := by
  induction cs with
  | nil => rfl
  | cons c rest ih =>
      by_cases hc : c = sep
      · subst hc
        rw [jsSplitChar, if_pos rfl]
        cases hsr : jsSplitChar c rest with
        | nil => exact absurd hsr (jsSplitChar_ne_nil c rest)
        | cons q qs =>
            rw [joinWithChar]
            rw [hsr] at ih
            rw [ih]
            rfl
      · rw [jsSplitChar, if_neg hc]
        cases hsr : jsSplitChar sep rest with
        | nil => exact absurd hsr (jsSplitChar_ne_nil sep rest)
        | cons q qs =>
            rw [hsr] at ih
            cases qs with
            | nil =>
                rw [joinWithChar]
                rw [joinWithChar] at ih
                rw [ih]
            | cons r rs =>
                rw [joinWithChar]
                rw [joinWithChar] at ih
                rw [List.cons_append, ih]

theorem startsWithList_append (p rest : List Char) :
    startsWithList (p ++ rest) p = true := by
  induction p with
  | nil => simp [startsWithList]
  | cons a ps ih => simp [startsWithList, List.cons_append, ih]

/-- C10: for every non-negative delay `ms` and every message — including
messages that themselves contain `:` — the controller's parse of the
relay's encoded throttle error `"RATE_LIMITED:" + ms + ":" + message`
recovers exactly `cooldownMs = ms` and the original message unchanged. -/
theorem C10_rate_limited_round_trip (ms : Nat) (message : List Char) :
    parseRateLimited (encodeRateLimited ms message) = some (some ms, message) := by
  have hd1 : ∀ c ∈ "RATE_LIMITED".data, c ≠ ':' := by decide
  have hd2 : ∀ c ∈ natDigits ms, c ≠ ':' := by
    intro c hc he
    have := natDigits_all_digit ms c hc
    rw [he] at this
    exact absurd this (by decide)
  have hshape : encodeRateLimited ms message
      = "RATE_LIMITED".data ++ ':' :: (natDigits ms ++ ':' :: message) := by
    have hdata : "RATE_LIMITED:".data = "RATE_LIMITED".data ++ [':'] := by decide
    rw [encodeRateLimited, hdata, List.append_assoc]
    rfl
  have hsplit : jsSplitChar ':' (encodeRateLimited ms message)
      = "RATE_LIMITED".data :: natDigits ms :: jsSplitChar ':' message := by
    rw [hshape, jsSplitChar_append _ _ _ hd1, jsSplitChar_append _ _ _ hd2]
  obtain ⟨q, qs, hq⟩ : ∃ q qs, jsSplitChar ':' message = q :: qs := by
    cases h : jsSplitChar ':' message with
    | nil => exact absurd h (jsSplitChar_ne_nil ':' message)
    | cons q qs => exact ⟨q, qs, rfl⟩
  have hjoin : joinWithChar ':' (q :: qs) = message := by
    rw [← hq]
    exact joinWithChar_jsSplitChar ':' message
  have hsw : startsWithList (encodeRateLimited ms message) "RATE_LIMITED:".data = true := by
    rw [encodeRateLimited, List.append_assoc]
    exact startsWithList_append _ _
  rw [parseRateLimited, if_pos hsw, hsplit, hq]
  simp [jsParseInt_natDigits ms, hjoin]

theorem decodeBytes_append (st : Utf8State) (b1 b2 : List Nat) :
    decodeBytes st (b1 ++ b2)
      = ((decodeBytes (decodeBytes st b1).1 b2).1,
         (decodeBytes st b1).2 ++ (decodeBytes (decodeBytes st b1).1 b2).2) := by
  induction b1 generalizing st with
  | nil => simp [decodeBytes]
  | cons b rest ih => simp [decodeBytes, ih, List.append_assoc]

theorem jsSplitChar_no_sep (sep : Char) (b : List Char) (h : ∀ c ∈ b, c ≠ sep) :
    jsSplitChar sep b = [b] := by
  induction b with
  | nil => rfl
  | cons c rest ih =>
      rw [jsSplitChar, if_neg (h c (by simp)), ih fun x hx => h x (by simp [hx])]

theorem pushChunk_nil (b : List Char) (h : ∀ c ∈ b, c ≠ '\n') :
    pushChunk b [] = ([], b) := by
  simp [pushChunk, jsSplitChar_no_sep '\n' b h]

theorem feedChars_no_sep (b d : List Char) (h : ∀ c ∈ b, c ≠ '\n') :
    ∀ c ∈ (feedChars b d).2, c ≠ '\n' := by
  induction d generalizing b with
  | nil => simpa [feedChars] using h
  | cons c rest ih =>
      by_cases hc : c = '\n'
      · subst hc
        rw [feedChars, if_pos rfl]
        exact ih [] (by simp)
      · rw [feedChars, if_neg hc]
        refine ih (b ++ [c]) ?_
        intro x hx
        rcases List.mem_append.1 hx with h1 | h1
        · exact h x h1
        · simp only [List.mem_singleton] at h1
          subst h1
          exact hc

theorem pushChunk_eq_feedChars (d b : List Char) (h : ∀ c ∈ b, c ≠ '\n') :
    pushChunk b d = feedChars b d := by
  induction d generalizing b with
  | nil => rw [feedChars, pushChunk_nil b h]
  | cons c rest ih =>
      by_cases hc : c = '\n'
      · subst hc
        have hsplit : jsSplitChar '\n' (b ++ '\n' :: rest) = b :: jsSplitChar '\n' rest :=
          jsSplitChar_append '\n' b rest h
        have hrec := ih [] (by simp)
        rw [feedChars, if_pos rfl, ← hrec]
        cases hP : jsSplitChar '\n' rest with
        | nil => exact absurd hP (jsSplitChar_ne_nil '\n' rest)
        | cons q qs =>
            simp [pushChunk, hsplit, hP, List.getLastD]
      · have hshift : b ++ c :: rest = (b ++ [c]) ++ rest := by simp
        have h2 : ∀ x ∈ b ++ [c], x ≠ '\n' := by
          intro x hx
          rcases List.mem_append.1 hx with h1 | h1
          · exact h x h1
          · simp only [List.mem_singleton] at h1
            subst h1
            exact hc
        rw [feedChars, if_neg hc, ← ih (b ++ [c]) h2]
        simp only [pushChunk, hshift]

theorem feedChars_append (d1 d2 b : List Char) :
    feedChars b (d1 ++ d2)
      = ((feedChars b d1).1 ++ (feedChars (feedChars b d1).2 d2).1,
         (feedChars (feedChars b d1).2 d2).2) := by
  induction d1 generalizing b with
  | nil => simp [feedChars]
  | cons c rest ih =>
      by_cases hc : c = '\n'
      · subst hc
        simp [feedChars, ih]
      · simp [feedChars, hc, ih]

theorem pushChunk_append (d1 d2 b : List Char) (h : ∀ c ∈ b, c ≠ '\n') :
    pushChunk b (d1 ++ d2)
      = ((pushChunk b d1).1 ++ (pushChunk (pushChunk b d1).2 d2).1,
         (pushChunk (pushChunk b d1).2 d2).2) := by
  rw [pushChunk_eq_feedChars d1 b h]
  rw [pushChunk_eq_feedChars d2 (feedChars b d1).2 (feedChars_no_sep b d1 h)]
  rw [pushChunk_eq_feedChars (d1 ++ d2) b h]
  exact feedChars_append d1 d2 b

theorem runLines_append (l1 l2 : List (List Char)) :
    runLines false (l1 ++ l2)
      = (if (runLines false l1).1 then (true, (runLines false l1).2)
         else ((runLines false l2).1, (runLines false l1).2 ++ (runLines false l2).2)) := by
  induction l1 with
  | nil => simp [runLines]
  | cons l ls ih =>
      cases hp : processLine l with
      | yield t =>
          simp only [List.cons_append, runLines, hp, ih]
          split <;> simp_all
      | skip =>
          simp only [List.cons_append, runLines, hp]
          exact ih
      | terminate => simp [runLines, hp]

theorem relayRun_finished (rs : List (List Nat)) (st : RelayState)
    (h : st.finished = true) : relayRun st rs = (st, []) := by
  induction rs with
  | nil => rfl
  | cons r rs ih => simp [relayRun, processRead, h, ih]

theorem processRead_not_finished (st : RelayState) (bytes : List Nat)
    (hb : st.finished = false) :
    processRead st bytes
      = (⟨(decodeBytes st.u bytes).1,
          (pushChunk st.buffer (decodeBytes st.u bytes).2).2,
          (runLines false (pushChunk st.buffer (decodeBytes st.u bytes).2).1).1⟩,
         (runLines false (pushChunk st.buffer (decodeBytes st.u bytes).2).1).2) := by
  simp [processRead, hb]

theorem relayRun_eq_single (reads : List (List Nat)) (st : RelayState)
    (h : ∀ c ∈ st.buffer, c ≠ '\n') :
    (relayRun st reads).2 = (processRead st reads.flatten).2 := by
  induction reads generalizing st with
  | nil =>
      by_cases hf : st.finished = true
      · simp [relayRun, processRead, hf]
      · have hb : st.finished = false := by simpa using hf
        simp [relayRun, processRead, hb, decodeBytes, pushChunk_nil st.buffer h, runLines]
  | cons r rs ih =>
      by_cases hf : st.finished = true
      · have h1 : processRead st r = (st, []) := by simp [processRead, hf]
        simp [relayRun, h1, relayRun_finished rs st hf, processRead, hf]
      · have hb : st.finished = false := by simpa using hf
        have hbuf1 : ∀ c ∈ (pushChunk st.buffer (decodeBytes st.u r).2).2, c ≠ '\n' := by
          rw [pushChunk_eq_feedChars _ _ h]
          exact feedChars_no_sep _ _ h
        rw [show (relayRun st (r :: rs)).2
            = (processRead st r).2 ++ (relayRun (processRead st r).1 rs).2 from rfl]
        rw [show (r :: rs).flatten = r ++ rs.flatten from rfl]
        rw [processRead_not_finished st r hb,
          processRead_not_finished st (r ++ rs.flatten) hb,
          decodeBytes_append st.u r rs.flatten,
          pushChunk_append _ _ _ h, runLines_append]
        by_cases hfin : (runLines false (pushChunk st.buffer (decodeBytes st.u r).2).1).1 = true
        · rw [relayRun_finished rs _ (by simp [hfin])]
          simp [hfin]
        · have hfin2 : (runLines false (pushChunk st.buffer (decodeBytes st.u r).2).1).1 = false := by
            simpa using hfin
        
          rw [ih _ hbuf1, processRead_not_finished _ rs.flatten (by simp [hfin2])]
          simp [hfin2]

/-- C4: the relay's incremental decode is insensitive to how the upstream
byte stream is partitioned into reads — including a boundary inside a
multi-byte UTF-8 character or inside a frame — because the undecoded byte
remainder and the last unterminated line are carried into the next read:
any partition yields exactly the chunk sequence of a single-read arrival.
Moreover a line whose frame payload the handler cannot use (for example
invalid JSON) is skipped: it neither terminates the stream nor affects
later chunks. -/
theorem C4_split_invariant_decoding :
    (∀ reads : List (List Nat), relayStream reads = relayStream [reads.flatten]) ∧
    (∀ l ls, processLine l = LineAction.skip →
      runLines false (l :: ls) = runLines false ls) := by
  constructor
  · intro reads
    have h0 : ∀ c ∈ (initRelayState).buffer, c ≠ '\n' := by
      intro c hc
      simp [initRelayState] at hc
    rw [relayStream, relayStream, relayRun_eq_single reads initRelayState h0,
      relayRun_eq_single [reads.flatten] initRelayState h0]
    simp
  · intro l ls hskip
    simp [runLines, hskip]

/-- Closed witness for `C4_split_invariant_decoding`: a two-byte UTF-8
character and a frame both split across a read boundary decode as if they
arrived in one read, and a malformed `data:` frame is skipped without
affecting the frames around it. -/
theorem C4_split_invariant_decoding_witness :
    relayStream
        [strBytes "data: \x7b\"candidates\":[\x7b\"content\":\x7b\"parts\":[\x7b\"text\":\"" ++ [0xC3],
         [0xA9] ++ strBytes "\"\x7d]\x7d\x7d]\x7d\nda",
         strBytes "ta: \x7b\"candidates\":[\x7b\"content\":\x7b\"parts\":[\x7b\"text\":\"B\"\x7d]\x7d\x7d]\x7d\n"]
      = relayStream
        [([strBytes "data: \x7b\"candidates\":[\x7b\"content\":\x7b\"parts\":[\x7b\"text\":\"" ++ [0xC3],
           [0xA9] ++ strBytes "\"\x7d]\x7d\x7d]\x7d\nda",
           strBytes "ta: \x7b\"candidates\":[\x7b\"content\":\x7b\"parts\":[\x7b\"text\":\"B\"\x7d]\x7d\x7d]\x7d\n"] :
            List (List Nat)).flatten] ∧
    runLines false
        ["data: notjson".data,
         "data: \x7b\"candidates\":[\x7b\"content\":\x7b\"parts\":[\x7b\"text\":\"B\"\x7d]\x7d\x7d]\x7d".data]
      = runLines false
        ["data: \x7b\"candidates\":[\x7b\"content\":\x7b\"parts\":[\x7b\"text\":\"B\"\x7d]\x7d\x7d]\x7d".data] :=
  ⟨C4_split_invariant_decoding.1 _,
   C4_split_invariant_decoding.2 _ _ (by decide)⟩

/-- C5 counterexample: in a state where the gate denies *and* the
extracted content is too short, the run settles with the rate-limit
countdown, not with the "couldn't extract" error — the code gates via
`RateLimiter.canMakeRequest()` *before* it extracts content, so the
claimed order (Extracting, then Gating) does not hold. -/
theorem C5_counterexample_gate_precedes_extraction :
    runBriefrr (.result (.denied 1234 "backoff")) (some "key")
        (.ok ⟨"T", "too short", "S"⟩) .highlights ""
      = .deniedCountdown "Rate limit cooldown active. Too many requests were made." 1234 ∧
    RunOutcome.deniedCountdown
        "Rate limit cooldown active. Too many requests were made." 1234
      ≠ .extractFailed ("Couldn" ++ apos
          ++ "t extract meaningful content from this page. The page might be too dynamic or empty.") :=
  ⟨rfl, by simp⟩

/-- C5 amended: a run first gates via `RateLimiter.canMakeRequest()`; a
denied gate goes straight to a retryable settled state with an auto-retry
countdown of the reported `remainingMs`, the upstream never being
contacted and extraction never attempted. Only otherwise does it check the
API key and then request extracted text; if extraction throws, or the
content is absent or shorter than 50 characters after trimming, it settles
fatally with a user-facing "couldn't extract" error and no upstream call.
Otherwise (and, in query mode, given a nonempty query) it enters
streaming — the sequence is Gating, then Extracting, then Streaming, then
Settled. -/
theorem C5_run_sequence_amended (gate : GateOutcome) (apiKey : Option String)
    (article : Except Unit Article) (mode : Mode) (searchQuery : String) :
    (∀ remainingMs reason, gate = .result (.denied remainingMs reason) →
      runBriefrr gate apiKey article mode searchQuery
        = .deniedCountdown
            (if reason = "backoff" then
              "Rate limit cooldown active. Too many requests were made."
             else "Please wait before making another request.")
            remainingMs) ∧
    (gate = .result .allowed ∨ gate = .thrown →
      (apiKey = none →
        runBriefrr gate apiKey article mode searchQuery = .needsApiKey) ∧
      (∀ k, apiKey = some k →
        (article = .error () →
          runBriefrr gate apiKey article mode searchQuery
            = .extractFailed ("Couldn" ++ apos
                ++ "t extract content from this page. The page might be too dynamic or empty.")) ∧
        (∀ a, article = .ok a →
          (a.content = "" ∨ (jsTrimList a.content.data).length < 50) →
          runBriefrr gate apiKey article mode searchQuery
            = .extractFailed ("Couldn" ++ apos
                ++ "t extract meaningful content from this page. The page might be too dynamic or empty.")) ∧
        (∀ a, article = .ok a →
          ¬ (a.content = "" ∨ (jsTrimList a.content.data).length < 50) →
          ¬ (mode = .search ∧ jsTrimList searchQuery.data = []) →
          runBriefrr gate apiKey article mode searchQuery
            = .streaming (systemPromptFor mode) (buildUserPrompt a mode searchQuery)))) := by
  constructor
  · rintro remainingMs reason rfl
    rfl
  · rintro (rfl | rfl) <;>
      refine ⟨?_, ?_⟩ <;>
      try rintro rfl
    · rfl
    · rintro k rfl
      refine ⟨?_, ?_, ?_⟩
      · rintro rfl
        rfl
      · rintro a rfl hshort
        show (if a.content = "" ∨ (jsTrimList a.content.data).length < 50 then _ else _) = _
        rw [if_pos hshort]
      · rintro a rfl hok hq
        show (if a.content = "" ∨ (jsTrimList a.content.data).length < 50 then _ else _) = _
        rw [if_neg hok, if_neg hq]
    · rfl
    · rintro k rfl
      refine ⟨?_, ?_, ?_⟩
      · rintro rfl
        rfl
      · rintro a rfl hshort
        show (if a.content = "" ∨ (jsTrimList a.content.data).length < 50 then _ else _) = _
        rw [if_pos hshort]
      · rintro a rfl hok hq
        show (if a.content = "" ∨ (jsTrimList a.content.data).length < 50 then _ else _) = _
        rw [if_neg hok, if_neg hq]

/-- Closed witness for `C5_run_sequence_amended`: a denied gate (with a
too-short article present), a missing key, a throwing extraction, a
40-character extraction, and a successful 60-character run. -/
theorem C5_run_sequence_amended_witness :
    runBriefrr (.result (.denied 59000 "backoff")) (some "k")
        (.ok ⟨"T", String.mk (List.replicate 40 'x'), "S"⟩) .highlights ""
      = .deniedCountdown "Rate limit cooldown active. Too many requests were made." 59000 ∧
    runBriefrr (.result .allowed) none (.ok ⟨"T", "c", "S"⟩) .highlights ""
      = .needsApiKey ∧
    runBriefrr (.result .allowed) (some "k") (.error ()) .highlights ""
      = .extractFailed ("Couldn" ++ apos
          ++ "t extract content from this page. The page might be too dynamic or empty.") ∧
    runBriefrr (.result .allowed) (some "k")
        (.ok ⟨"T", String.mk (List.replicate 40 'x'), "S"⟩) .highlights ""
      = .extractFailed ("Couldn" ++ apos
          ++ "t extract meaningful content from this page. The page might be too dynamic or empty.") ∧
    runBriefrr (.result .allowed) (some "k")
        (.ok ⟨"T", String.mk (List.replicate 60 'x'), "S"⟩) .highlights ""
      = .streaming (systemPromptFor .highlights)
          (buildUserPrompt ⟨"T", String.mk (List.replicate 60 'x'), "S"⟩ .highlights "") := by
  refine ⟨?_, ?_, ?_, ?_, ?_⟩
  · exact (C5_run_sequence_amended _ _ _ _ _).1 59000 "backoff" rfl
  · exact ((C5_run_sequence_amended (.result .allowed) none
      (.ok ⟨"T", "c", "S"⟩) .highlights "").2 (Or.inl rfl)).1 rfl
  · exact (((C5_run_sequence_amended (.result .allowed) (some "k")
      (.error ()) .highlights "").2 (Or.inl rfl)).2 "k" rfl).1 rfl
  · exact ((((C5_run_sequence_amended (.result .allowed) (some "k")
      (.ok ⟨"T", String.mk (List.replicate 40 'x'), "S"⟩) .highlights "").2
        (Or.inl rfl)).2 "k" rfl).2.1 _ rfl (Or.inr (by decide)))
  · exact ((((C5_run_sequence_amended (.result .allowed) (some "k")
      (.ok ⟨"T", String.mk (List.replicate 60 'x'), "S"⟩) .highlights "").2
        (Or.inl rfl)).2 "k" rfl).2.2 _ rfl (by decide) (by decide))

/-- C6 counterexample: an upstream streaming POST rejected with HTTP 403
and server message "Forbidden" yields the server-provided message, not
`INVALID_KEY` — only HTTP 400 maps to `INVALID_KEY` on the streaming
call. -/
theorem C6_http403_counterexample :
    streamErrorMapping 403 (some "Forbidden") ⟨none, none⟩
      = ("Forbidden", ⟨none, none⟩) ∧
    ("Forbidden" : String) ≠ "INVALID_KEY" :=
  ⟨rfl, by decide⟩

/-- C6 amended: when the streaming POST rejects before streaming starts,
HTTP 400 yields `INVALID_KEY`; HTTP 429 calls
`RateLimiter.recordRateLimitError()` and yields
`RATE_LIMITED:<ms>:<message>` embedding the backoff that call returned;
every other status yields the server-provided error message when available
(non-empty), otherwise the generic failure message. HTTP 403 takes the
generic branch on the streaming POST; only the separate credential
validation GET (`validateApiKey`) maps both 400 and 403 to
`INVALID_KEY`. -/
theorem C6_error_mapping_amended (status : Nat) (serverMessage : Option String)
    (s : StoredState) (detail : String) :
    (status = 400 → streamErrorMapping status serverMessage s = ("INVALID_KEY", s)) ∧
    (status = 429 → streamErrorMapping status serverMessage s
        = ("RATE_LIMITED:" ++ toString (recordRateLimitError s).2 ++ ":You" ++ apos
            ++ "ve hit the API rate limit. Please wait "
            ++ formatTimeRemaining (recordRateLimitError s).2.toNat ++ " and try again.",
           (recordRateLimitError s).1)) ∧
    (status ≠ 400 → status ≠ 429 → ∀ m, serverMessage = some m → m ≠ "" →
      streamErrorMapping status serverMessage s = (m, s)) ∧
    (status ≠ 400 → status ≠ 429 →
      (serverMessage = none ∨ serverMessage = some "") →
      streamErrorMapping status serverMessage s
        = ("API error (" ++ toString status ++ ")", s)) ∧
    validateApiKeyResult false 400 detail = (false, some "INVALID_KEY") ∧
    validateApiKeyResult false 403 detail = (false, some "INVALID_KEY") := by
  refine ⟨?_, ?_, ?_, ?_, ?_, ?_⟩
  · intro h
    subst h
    simp [streamErrorMapping]
  · intro h
    subst h
    simp [streamErrorMapping, recordRateLimitError]
  · intro h4 h29 m hm hne
    subst hm
    simp [streamErrorMapping, h4, h29, hne]
  · intro h4 h29 hsm
    rcases hsm with h | h <;> subst h <;> simp [streamErrorMapping, h4, h29]
  · simp [validateApiKeyResult]
  · simp [validateApiKeyResult]

/-- Closed witness for `C6_error_mapping_amended`: statuses 400, 429, 503
(with a server message), 500 (without), and the validation GET on 400 and
403. -/
theorem C6_error_mapping_amended_witness :
    streamErrorMapping 400 (some "Bad request") ⟨none, none⟩
      = ("INVALID_KEY", ⟨none, none⟩) ∧
    streamErrorMapping 429 none ⟨none, none⟩
      = ("RATE_LIMITED:" ++ toString (recordRateLimitError (⟨none, none⟩ : StoredState)).2
          ++ ":You" ++ apos ++ "ve hit the API rate limit. Please wait "
          ++ formatTimeRemaining (recordRateLimitError (⟨none, none⟩ : StoredState)).2.toNat
          ++ " and try again.",
         (recordRateLimitError (⟨none, none⟩ : StoredState)).1) ∧
    streamErrorMapping 503 (some "Service unavailable") ⟨none, none⟩
      = ("Service unavailable", ⟨none, none⟩) ∧
    streamErrorMapping 500 none ⟨none, none⟩
      = ("API error (" ++ toString (500 : Nat) ++ ")", ⟨none, none⟩) ∧
    validateApiKeyResult false 400 "" = (false, some "INVALID_KEY") ∧
    validateApiKeyResult false 403 "" = (false, some "INVALID_KEY") := by
  refine ⟨?_, ?_, ?_, ?_, ?_, ?_⟩
  · exact (C6_error_mapping_amended 400 (some "Bad request") ⟨none, none⟩ "").1 rfl
  · exact (C6_error_mapping_amended 429 none ⟨none, none⟩ "").2.1 rfl
  · exact (C6_error_mapping_amended 503 (some "Service unavailable") ⟨none, none⟩ "").2.2.1
      (by decide) (by decide) _ rfl (by decide)
  · exact (C6_error_mapping_amended 500 none ⟨none, none⟩ "").2.2.2.1
      (by decide) (by decide) (Or.inl rfl)
  · exact (C6_error_mapping_amended 0 none ⟨none, none⟩ "").2.2.2.2.1
  · exact (C6_error_mapping_amended 0 none ⟨none, none⟩ "").2.2.2.2.2

/-- C8: if the channel closes without an explicit abort: with zero
accumulated text the rejection reaches the catch and the run settles as a
retryable error (manual retry button, no countdown) — a connectivity
failure surfaced through the generic interrupted-response message; with
nonzero accumulated text the run settles as a clean completion that
preserves the accumulated text and surfaces no error. -/
theorem C8_unexpected_disconnect (aborted : Bool) (accumulated : String)
    (hab : aborted = false) :
    (accumulated = "" →
      settleAfterDisconnect aborted accumulated
        = .errorShown
            ⟨"The response was interrupted. Connection to extension lost. Please try again.",
             true, some 0⟩
            accumulated) ∧
    (accumulated ≠ "" →
      settleAfterDisconnect aborted accumulated = .completedClean accumulated) := by
  subst hab
  constructor
  · intro he
    subst he
    rfl
  · intro hne
    simp [settleAfterDisconnect, onDisconnect, hne]

/-- Closed witness for `C8_unexpected_disconnect`: an unexpected close with
nothing accumulated, and one after "Hello" has streamed. -/
theorem C8_unexpected_disconnect_witness :
    settleAfterDisconnect false ""
      = .errorShown
          ⟨"The response was interrupted. Connection to extension lost. Please try again.",
           true, some 0⟩ "" ∧
    settleAfterDisconnect false "Hello" = .completedClean "Hello" :=
  ⟨(C8_unexpected_disconnect false "" rfl).1 rfl,
   (C8_unexpected_disconnect false "Hello" rfl).2 (by decide)⟩

/-- C9 counterexample: a mode switch does not cancel a live stream.
Switching to query (search) mode while a stream is live leaves the stream
live and schedules no run that would later abort it — `switchMode` never
touches `abortController`. -/
theorem C9_counterexample_switch_keeps_stream :
    (switchMode ⟨Mode.highlights, none, true⟩ Mode.search).streamLive = true ∧
    (switchMode ⟨Mode.highlights, none, true⟩ Mode.search).debounce = none :=
  ⟨rfl, rfl⟩

/-- C9 amended: every mode switch cancels any pending debounce timer and
updates the displayed mode immediately, but leaves a live stream exactly
as it was; switching to query (search) mode never auto-runs (no run is
scheduled); switching to brief or explain schedules exactly one run after
the 500 ms debounce, and a live stream is aborted only when that run
starts; any sequence of switches leaves at most one pending run, so a
rapid sequence of mode toggles issues at most one call. -/
theorem C9_mode_switch_amended (s : UIState) (newMode : Mode) :
    (switchMode s newMode).currentMode = newMode ∧
    (switchMode s newMode).streamLive = s.streamLive ∧
    (newMode = .search → switchMode s newMode = ⟨newMode, none, s.streamLive⟩) ∧
    (newMode ≠ .search → switchMode s newMode = ⟨newMode, some newMode, s.streamLive⟩) ∧
    (∀ modes : List Mode, pendingRuns (modes.foldl switchMode s) ≤ 1) ∧
    (∀ m, s.debounce = some m →
      debounceFire s = (⟨s.currentMode, none, true⟩, some m)) := by
  refine ⟨?_, ?_, ?_, ?_, ?_, ?_⟩
  · unfold switchMode
    split <;> rfl
  · unfold switchMode
    split <;> rfl
  · intro h
    simp [switchMode, h]
  · intro h
    simp [switchMode, h]
  · intro modes
    cases h : (modes.foldl switchMode s).debounce <;> simp [pendingRuns, h]
  · intro m hm
    simp [debounceFire, hm]

/-- Closed witness for `C9_mode_switch_amended`: a switch to search with a
pending debounce and a live stream, a switch to explain, a three-toggle
sequence, and a debounce expiry. -/
theorem C9_mode_switch_amended_witness :
    switchMode ⟨Mode.highlights, some Mode.explain, true⟩ Mode.search
      = ⟨Mode.search, none, true⟩ ∧
    switchMode ⟨Mode.highlights, none, false⟩ Mode.explain
      = ⟨Mode.explain, some Mode.explain, false⟩ ∧
    pendingRuns ([Mode.explain, Mode.highlights, Mode.search].foldl switchMode
        ⟨Mode.highlights, none, false⟩) ≤ 1 ∧
    debounceFire ⟨Mode.explain, some Mode.explain, true⟩
      = (⟨Mode.explain, none, true⟩, some Mode.explain) :=
  ⟨(C9_mode_switch_amended ⟨Mode.highlights, some Mode.explain, true⟩ Mode.search).2.2.1 rfl,
   (C9_mode_switch_amended ⟨Mode.highlights, none, false⟩ Mode.explain).2.2.2.1 (by decide),
   (C9_mode_switch_amended ⟨Mode.highlights, none, false⟩ Mode.explain).2.2.2.2.1 _,
   (C9_mode_switch_amended ⟨Mode.explain, some Mode.explain, true⟩ Mode.search).2.2.2.2.2
     Mode.explain rfl⟩
